import Mathlib

/-!
Verification of the sapper-store state container (`src/store.js`, plus the
older variant of the same class shipped in the repository).

The embedding models:
* JS values stored in state objects (`JVal`);
* JS object property lookup/assignment over string keys (`objGet`, `objSet`,
  `objAssign`), with last-assignment-wins semantics;
* a heap of state objects so that in-place mutation of `this._state` by
  `Object.assign` and the freshness of objects built by spread literals are
  observable (`heapRead`, `heapWrite`, `heapAlloc`);
* `window.localStorage` as a string-keyed table of serialized values
  (`getItem`, `setItem`), with `JSON.stringify`/`JSON.parse` abstracted as an
  injective encoding (`JSStr`, `jsonParse`);
* the `Store` class itself: `set`, `get`, `init`, `dispatch`, `commit`, the
  constructor of `src/store.js` (`Store.construct`) and the constructor of the
  older variant (`Store.constructV1`), which loads persisted state eagerly.

The external reactive primitive (`svelte/store.js`) is out of scope per the
specification, which models its `set` as replace-and-notify; observers
registered with `on('state', ...)` are represented by the persistence
listener flag. Console output is modelled only where a claim references it
(the direct-write warning counter); `CustomEvent` dispatches carry no state
and are not modelled.
-/

/-- A JavaScript value as can appear in a field of the store state. -/
inductive JVal where
  | jnull : JVal
  | jbool (b : Bool) : JVal
  | jnum (n : Int) : JVal
  | jstr (s : String) : JVal
deriving DecidableEq

/-- A JS object with string keys: the shape of the store state and of the
partial states returned by mutations. Entries are kept in insertion order;
`objGet`/`objSet` below give JS property semantics. -/
abbrev StateMap := List (String × JVal)

/-- JS property read `o[k]`: the value of the last assignment to key `k`,
`none` when the key is absent (JS `undefined`). -/
def objGet {α : Type} : List (String × α) → String → Option α
  | [], _ => none
  | (k, v) :: rest, key =>
    match objGet rest key with
    | some w => some w
    | none => if key = k then some v else none

/-- JS property write `o[k] = v`: overwrites the value at an existing key in
place (keeping its position), appends the entry when the key is new. -/
def objSet {α : Type} (l : List (String × α)) (k : String) (v : α) :
    List (String × α) :=
  if l.any (fun p => p.1 = k) then
    l.map (fun p => if p.1 = k then (k, v) else p)
  else l ++ [(k, v)]

/-- `Object.assign(target, src)` / spread-merge content: every entry of `src`
assigned onto `target` in order, so `src` wins on shared keys. -/
def objAssign (target src : StateMap) : StateMap :=
  src.foldl (fun t p => objSet t p.1 p.2) target

/-- The heap of state objects; an address is an index into the cell list. -/
abbrev Heap := List StateMap

/-- Dereference a state-object address. -/
def heapRead (h : Heap) (a : Nat) : StateMap := (h.get? a).getD []

/-- Overwrite the object at an address in place (`Object.assign` target). -/
def heapWrite (h : Heap) (a : Nat) (m : StateMap) : Heap := h.set a m

/-- Allocate a fresh object (a spread literal) and return its address. -/
def heapAlloc (h : Heap) (m : StateMap) : Heap × Nat := (h ++ [m], h.length)

/-- A JS string as relevant to persistence: `ser m` is `JSON.stringify` of the
state object `m`; `raw s` stands for a string that is not the serialization
of any state object and fails `JSON.parse`. -/
inductive JSStr where
  | ser (m : StateMap) : JSStr
  | raw (s : String) : JSStr

/-- The only falsy JS string is the empty string. -/
def isFalsyStr : JSStr → Bool
  | .raw s => s = ""
  | .ser _ => false

/-- The argument `init` actually hands to `JSON.parse`: either a string from
`localStorage`, or the object literal `{}` from the `|| {}` fallback. -/
inductive JsonInput where
  | str (s : JSStr) : JsonInput
  | emptyObj : JsonInput

/-- `JSON.parse`: `none` models a thrown SyntaxError. The `{}` fallback is
coerced to the string "[object Object]", which is not valid JSON. -/
def jsonParse : JsonInput → Option StateMap
  | .str (.ser m) => some m
  | .str (.raw _) => none
  | .emptyObj => none

/-- The exception JSON.parse throws on unparseable input (a SyntaxError). -/
inductive JsErr where
  | parseFailure : JsErr
deriving DecidableEq

/-- `window.localStorage`: a table from keys to stored strings. -/
abbrev StorageMap := List (String × JSStr)

/-- `localStorage.getItem(key)`: `none` models JS `null` (key absent). -/
def getItem (storage : StorageMap) (key : String) : Option JSStr :=
  objGet storage key

/-- `localStorage.setItem(key, value)`. -/
def setItem (storage : StorageMap) (key : String) (v : JSStr) : StorageMap :=
  objSet storage key v

/-- The built-in sentinel used when no `key` option is supplied. -/
def defaultStoreKey : String := "_sapper_store_key_"


/-- The store minus its action and getter tables. Actions and getters receive
the store itself in JS (`this` binding / the context argument); giving them
this core as their context breaks the type-level circularity while keeping
everything they can observe and (for actions) everything `commit` changes. -/
structure StoreCore where
  /-- The heap of state objects. -/
  heap : Heap
  /-- `this._state`: the address of the current state object. -/
  stateAddr : Nat
  /-- `this.status`: "noop", "action" or "mutation". -/
  status : String
  /-- `this.mutations`: mutation name to `(state, payload) => partial state`. -/
  mutations : List (String × (StateMap → JVal → StateMap))
  /-- `this.storeKey`: the `localStorage` key for persisted state. -/
  storeKey : String
  /-- The `window.localStorage` contents visible to this store. -/
  storage : StorageMap
  /-- `process.browser`. -/
  browser : Bool
  /-- `isDev`: whether NODE_ENV is development. -/
  isDev : Bool
  /-- Whether the `on('state', ...)` persistence listener is attached. -/
  persistListener : Bool
  /-- Count of direct-write warnings emitted by `console.warn` in `set`. -/
  warnings : Nat

/-- The sapper-store `Store` class. -/
structure Store extends StoreCore where
  /-- `this.actions`: action name to `(context, payload) => effects`. -/
  actions : List (String × (StoreCore → JVal → StoreCore)) := []
  /-- `this.getters`: getter name to a function bound to the store. -/
  getters : List (String × (StoreCore → List JVal → JVal)) := []

/-- The state object currently referenced by `this._state`. -/
def StoreCore.currentState (c : StoreCore) : StateMap :=
  heapRead c.heap c.stateAddr

/-- The state object currently referenced by `this._state`. -/
def Store.currentState (s : Store) : StateMap :=
  s.toStoreCore.currentState

/-- The recognized constructor options. Each `none` models an absent key
(`params.hasOwnProperty(...)` false). -/
structure Params where
  state : Option StateMap := none
  actions : Option (List (String × (StoreCore → JVal → StoreCore))) := none
  mutations : Option (List (String × (StateMap → JVal → StateMap))) := none
  getters : Option (List (String × (StoreCore → List JVal → JVal))) := none
  key : Option String := none

/-- `set(newState)` (identical in both variants of the class): warn via
`console.warn` if the guard is not 'mutation' (dev builds only), forward
`newState` to the reactive primitive's `set` (replace-and-notify; the
persistence listener, when attached, writes `JSON.stringify(current)` under
`storeKey`), then reset the guard to 'noop'. -/
def Store.set (s : Store) (newState : StateMap) : Store :=
  let warnings :=
    if s.status ≠ "mutation" ∧ s.isDev = true then s.warnings + 1
    else s.warnings
  let alloc := heapAlloc s.heap newState
  let storage :=
    if s.persistListener then setItem s.storage s.storeKey (JSStr.ser newState)
    else s.storage
  { s with
    heap := alloc.1
    stateAddr := alloc.2
    storage := storage
    warnings := warnings
    status := "noop" }

/-- `commit(mutationKey, payload)`: look the mutation up; if absent, log and
return `false`. Otherwise set the guard to 'mutation', run the mutation on
`this._state` to get a partial state, merge it over the current state with
`Object.assign(this._state, newState)` — which mutates the current state
object in place — then pass a fresh spread copy `{...}` of the merged object
to the guarded `set`, and return `true`. -/
def Store.commit (s : Store) (mutationKey : String) (payload : JVal) :
    Store × Bool :=
  match objGet s.mutations mutationKey with
  | none => (s, false)
  | some mutation =>
    let s1 : Store := { s with status := "mutation" }
    let prev := s1.currentState
    let newState := mutation prev payload
    let merged := objAssign prev newState
    let s2 : Store := { s1 with heap := heapWrite s1.heap s1.stateAddr merged }
    (s2.set merged, true)

/-- `dispatch(actionKey, payload)`: look the action up; if absent, report and
return `false`. Otherwise set the guard to 'action', invoke the action with
the store context and the payload, and return `true`. -/
def Store.dispatch (s : Store) (actionKey : String) (payload : JVal) :
    Store × Bool :=
  match objGet s.actions actionKey with
  | none => (s, false)
  | some action =>
    let core := action { s.toStoreCore with status := "action" } payload
    ({ s with toStoreCore := core }, true)

/-- The value `get` returns: the full snapshot (`super.get()`), a direct
field read (`super.get()[key]`, `none` for `undefined`), or a getter's
computed result. -/
inductive GetResult where
  | state (m : StateMap) : GetResult
  | field (v : Option JVal) : GetResult
  | computed (v : JVal) : GetResult

/-- `get(key = null, ...args)` of `src/store.js`: `if (key)` is false for
`null` and for the empty string, yielding the full snapshot; otherwise a
getter of that name is preferred (invoked bound to the store with the extra
arguments) and a plain field read is the fallback. -/
def Store.get (s : Store) (key : Option String := none)
    (args : List JVal := []) : GetResult :=
  match key with
  | some k =>
    if k ≠ "" then
      match objGet s.getters k with
      | some getter => .computed (getter s.toStoreCore args)
      | none => .field (objGet s.currentState k)
    else .state s.currentState
  | none => .state s.currentState

/-- `init(state = {})` of `src/store.js`: read `localStorage` at `storeKey`
with the `|| {}` fallback (also taken for a falsy stored string), set the
guard to 'mutation', then `set({ ...state, ...JSON.parse(json) })`. When
`JSON.parse` throws, the error propagates with the store as it stands (guard
already flipped, state untouched). -/
def Store.init (s : Store) (state : StateMap := []) :
    Except (Store × JsErr) Store :=
  let json : JsonInput :=
    match getItem s.storage s.storeKey with
    | some v => if isFalsyStr v then .emptyObj else .str v
    | none => .emptyObj
  let s1 : Store := { s with status := "mutation" }
  match jsonParse json with
  | none => .error (s1, JsErr.parseFailure)
  | some parsed => .ok (s1.set (objAssign state parsed))

/-- The constructor of `src/store.js`: `super()` in the browser (empty
initial state) or `super(params.state)` on the server; tables from the
recognized options; guard 'noop'; `storeKey` from `params.key` or the
sentinel; in the browser, attach the persistence listener. No persisted
state is read here. -/
def Store.construct (params : Params) (browser isDev : Bool)
    (storage : StorageMap) : Store :=
  { heap := [if browser then [] else params.state.getD []]
    stateAddr := 0
    status := "noop"
    mutations := params.mutations.getD []
    storeKey := params.key.getD defaultStoreKey
    storage := storage
    browser := browser
    isDev := isDev
    persistListener := browser
    warnings := 0
    actions := params.actions.getD []
    getters := params.getters.getD [] }

/-- The constructor of the older variant of the class shipped in the
repository (the second document of `src/unnamed/part_001`): same setup (no
getter table), but in the browser it reads `localStorage` at the key
immediately, sets the guard to 'mutation', applies `set(JSON.parse(json))`
when a truthy string is stored — before the persistence listener is
attached, so the load writes nothing back — and only then attaches the
listener. A parse failure propagates out of construction. -/
def Store.constructV1 (params : Params) (browser isDev : Bool)
    (storage : StorageMap) : Except JsErr Store :=
  let base : Store :=
    { heap := [if browser then [] else params.state.getD []]
      stateAddr := 0
      status := "noop"
      mutations := params.mutations.getD []
      storeKey := params.key.getD defaultStoreKey
      storage := storage
      browser := browser
      isDev := isDev
      persistListener := false
      warnings := 0
      actions := params.actions.getD []
      getters := [] }
  if browser then
    let base1 : Store := { base with status := "mutation" }
    match getItem storage base.storeKey with
    | none => .ok { base1 with persistListener := true }
    | some v =>
      if isFalsyStr v then .ok { base1 with persistListener := true }
      else
        match jsonParse (.str v) with
        | none => .error JsErr.parseFailure
        | some m => .ok { base1.set m with persistListener := true }
  else .ok base

/-! ## Concrete stores used by witnesses and counterexamples -/

/-- Key and name constants for the concrete examples. -/
def countKey : String := "count"

def itemsKey : String := "items"

def setCountName : String := "SET_COUNT"

def missingName : String := "doesNotExist"

/-- Example mutation: returns the partial state `{count: payload}`. -/
def setCountMutation : StateMap → JVal → StateMap :=
  fun _ payload => [(countKey, payload)]

/-- Example configuration: initial state with two fields, one mutation. -/
def demoParams : Params :=
  { state := some [(itemsKey, JVal.jnull), (countKey, JVal.jnum 0)]
    mutations := some [(setCountName, setCountMutation)] }

/-- A server-side store built from `demoParams` (initial state from the
`state` option, empty storage). -/
def demoStore : Store := Store.construct demoParams false false []

/-- A state as it would be persisted by an earlier run. -/
def persistedState : StateMap := [(countKey, JVal.jnum 5)]

/-- Browser-side configuration without an initial state. -/
def browserParams : Params :=
  { mutations := some [(setCountName, setCountMutation)] }

/-- Browser storage holding a parseable serialized state under the default
store key. -/
def browserStorage : StorageMap :=
  [(defaultStoreKey, JSStr.ser persistedState)]

/-- A browser-side store over `browserStorage`. -/
def browserStore : Store := Store.construct browserParams true false browserStorage

/-- The store `browserStore.init []` evaluates to. -/
def browserStoreInit : Store :=
  ((browserStore.init []).toOption).getD browserStore

/-- A string persisted under the store key that is not valid JSON. -/
def badJson : String := "not json"

/-- Browser storage holding the unparseable string under the store key. -/
def badStorage : StorageMap := [(defaultStoreKey, JSStr.raw badJson)]

/-- A browser-side store whose persisted value fails to parse. -/
def badStore : Store := Store.construct browserParams true false badStorage

/-- A browser-side store over empty storage (nothing persisted). -/
def emptyBrowserStore : Store := Store.construct browserParams true false []

/-- A getter ignoring the store and the arguments, returning 42. -/
def constGetter : StoreCore → List JVal → JVal := fun _ _ => JVal.jnum 42

/-- The empty string used as a property name. -/
def emptyKey : String := ""

def xKey : String := "x"

def yKey : String := "y"

/-- Configuration whose state has fields `x` and `y` and whose getter table
has entries named by the empty string and by `x`. -/
def c7Params : Params :=
  { state := some [(xKey, JVal.jnum 1), (yKey, JVal.jnum 2)]
    getters := some [(emptyKey, constGetter), (xKey, constGetter)] }

/-- A server-side store built from `c7Params`. -/
def c7Store : Store := Store.construct c7Params false false []

/-- The store the older variant's browser constructor produces when the
storage holds the parseable serialized state `m` under the key: the guarded
`set` of `m` over the empty initial state, listener attached afterwards. -/
def v1Loaded (p : Params) (dev : Bool) (storage : StorageMap)
    (m : StateMap) : Store :=
  { Store.set
      { heap := [[]]
        stateAddr := 0
        status := "mutation"
        mutations := p.mutations.getD []
        storeKey := p.key.getD defaultStoreKey
        storage := storage
        browser := true
        isDev := dev
        persistListener := false
        warnings := 0
        actions := p.actions.getD []
        getters := [] } m
    with persistListener := true }

/-! ## Lemmas about JS object property semantics -/

/-- Unfolding equation for `objGet` on a cons cell. -/
theorem objGet_cons {α : Type} (hd : String × α) (tl : List (String × α))
    (key : String) :
    objGet (hd :: tl) key =
      match objGet tl key with
      | some w => some w
      | none => if key = hd.1 then some hd.2 else none := by
  obtain ⟨k0, v0⟩ := hd
  rfl

theorem objGet_eq_none {α : Type} {l : List (String × α)} {k : String}
    (h : l.any (fun p => p.1 = k) = false) : objGet l k = none := by
  induction l with
  | nil => rfl
  | cons hd tl ih =>
    obtain ⟨k0, v0⟩ := hd
    rw [List.any_cons, Bool.or_eq_false_iff] at h
    have h1 : k0 ≠ k := by simpa using h.1
    have h2 : ¬ k = k0 := fun hk => h1 hk.symm
    rw [objGet_cons, ih h.2]
    simp [h2]

theorem map_overwrite_of_not_mem {α : Type} {l : List (String × α)}
    {k : String} (v : α) (h : l.any (fun p => p.1 = k) = false) :
    l.map (fun p => if p.1 = k then (k, v) else p) = l := by
  induction l with
  | nil => rfl
  | cons hd tl ih =>
    obtain ⟨k0, v0⟩ := hd
    rw [List.any_cons, Bool.or_eq_false_iff] at h
    have h1 : k0 ≠ k := by simpa using h.1
    simp only [List.map_cons, ih h.2]
    simp [h1]

theorem objGet_map_overwrite_ne {α : Type} {l : List (String × α)}
    {k k' : String} (v : α) (hne : k' ≠ k) :
    objGet (l.map (fun p => if p.1 = k then (k, v) else p)) k'
      = objGet l k' := by
  induction l with
  | nil => rfl
  | cons hd tl ih =>
    obtain ⟨k0, v0⟩ := hd
    by_cases hk0 : k0 = k
    · have hhead : ((k0, v0) :: tl).map (fun p => if p.1 = k then (k, v) else p)
          = (k, v) :: tl.map (fun p => if p.1 = k then (k, v) else p) := by
        simp [hk0]
      rw [hhead, objGet_cons, objGet_cons, ih]
      cases objGet tl k' with
      | some w => rfl
      | none => simp [hne, hk0]
    · have hhead : ((k0, v0) :: tl).map (fun p => if p.1 = k then (k, v) else p)
          = (k0, v0) :: tl.map (fun p => if p.1 = k then (k, v) else p) := by
        simp [hk0]
      rw [hhead, objGet_cons, objGet_cons, ih]

theorem objGet_map_overwrite_self {α : Type} {l : List (String × α)}
    {k : String} (v : α) (h : l.any (fun p => p.1 = k) = true) :
    objGet (l.map (fun p => if p.1 = k then (k, v) else p)) k = some v := by
  induction l with
  | nil => simp at h
  | cons hd tl ih =>
    obtain ⟨k0, v0⟩ := hd
    by_cases htl : tl.any (fun p => p.1 = k) = true
    · rw [List.map_cons, objGet_cons, ih htl]
    · have htl' : tl.any (fun p => p.1 = k) = false :=
        Bool.eq_false_iff.mpr htl
      have hk0 : k0 = k := by
        rw [List.any_cons, htl', Bool.or_false] at h
        simpa using h
      rw [List.map_cons, map_overwrite_of_not_mem v htl', objGet_cons,
          objGet_eq_none htl']
      simp [hk0]

theorem objGet_append_single {α : Type} (l : List (String × α))
    (k k' : String) (v : α) :
    objGet (l ++ [(k, v)]) k' = if k' = k then some v else objGet l k' := by
  induction l with
  | nil =>
    rw [List.nil_append, objGet_cons]
    simp [objGet]
  | cons hd tl ih =>
    rw [List.cons_append, objGet_cons, objGet_cons, ih]
    by_cases hk : k' = k <;> simp [hk]

theorem objGet_objSet {α : Type} (l : List (String × α)) (k k' : String)
    (v : α) :
    objGet (objSet l k v) k' = if k' = k then some v else objGet l k' := by
  unfold objSet
  by_cases hmem : l.any (fun p => p.1 = k) = true
  · rw [if_pos hmem]
    by_cases hk : k' = k
    · rw [if_pos hk, hk, objGet_map_overwrite_self v hmem]
    · rw [if_neg hk, objGet_map_overwrite_ne v hk]
  · rw [if_neg hmem, objGet_append_single]

/-- The shallow-merge law: a key of `src` reads back `src`'s value for it,
any other key keeps its value in `target`. -/
theorem objGet_objAssign (t s : StateMap) (k : String) :
    objGet (objAssign t s) k =
      match objGet s k with
      | some v => some v
      | none => objGet t k := by
  induction s generalizing t with
  | nil => rfl
  | cons hd tl ih =>
    obtain ⟨k0, v0⟩ := hd
    show objGet (objAssign (objSet t k0 v0) tl) k = _
    rw [ih, objGet_cons]
    cases hget : objGet tl k with
    | some w => rfl
    | none =>
      rw [objGet_objSet]
      by_cases hk : k = k0 <;> simp [hk]

/-! ## Lemmas about the heap of state objects -/

theorem heapRead_heapWrite_self : ∀ (h : Heap) (a : Nat) (m : StateMap),
    a < h.length → heapRead (heapWrite h a m) a = m
  | [], _, _, ha => absurd ha (by simp)
  | _ :: _, 0, _, _ => rfl
  | _ :: tl, n + 1, m, ha =>
    heapRead_heapWrite_self tl n m (Nat.lt_of_succ_lt_succ ha)

theorem heapRead_alloc (h : Heap) (m : StateMap) :
    heapRead (h ++ [m]) h.length = m := by
  induction h with
  | nil => rfl
  | cons hd tl ih => exact ih

theorem heapRead_append_of_lt : ∀ (h : Heap) (m : StateMap) (a : Nat),
    a < h.length → heapRead (h ++ [m]) a = heapRead h a
  | [], _, _, ha => absurd ha (by simp)
  | _ :: _, _, 0, _ => rfl
  | _ :: tl, m, n + 1, ha =>
    heapRead_append_of_lt tl m n (Nat.lt_of_succ_lt_succ ha)

/-! ## Basic facts about the guarded `set` -/

theorem currentState_set (s : Store) (m : StateMap) :
    (s.set m).currentState = m :=
  heapRead_alloc s.heap m

theorem status_set (s : Store) (m : StateMap) : (s.set m).status = "noop" :=
  rfl

/-! ## Further facts used by the claim theorems -/

theorem commit_of_found (s : Store) (mutationKey : String) (payload : JVal)
    (f : StateMap → JVal → StateMap)
    (hf : objGet s.mutations mutationKey = some f) :
    s.commit mutationKey payload =
      (Store.set
        { s with
          status := "mutation"
          heap := heapWrite s.heap s.stateAddr
            (objAssign s.currentState (f s.currentState payload)) }
        (objAssign s.currentState (f s.currentState payload)), true) := by
  unfold Store.commit
  rw [hf]
  rfl

theorem currentState_status_update (s : Store) (st : String) :
    Store.currentState { s with status := st } = s.currentState :=
  rfl

/-! ## Claim theorems -/

/-- C1: committing an existing mutation that returns a partial state `p`
yields a full state equal to the previous full state with every key of `p`
overwritten by `p`'s value and every key not in `p` bound to its previous
value (shallow merge, the partial wins on same-named fields). -/
theorem C1_commit_shallow_merge (s : Store) (mutationKey : String)
    (payload : JVal) (f : StateMap → JVal → StateMap)
    (hf : objGet s.mutations mutationKey = some f) (k : String) :
    objGet (s.commit mutationKey payload).1.currentState k =
      match objGet (f s.currentState payload) k with
      | some v => some v
      | none => objGet s.currentState k := by
  simp only [commit_of_found s mutationKey payload f hf, currentState_set,
    objGet_objAssign]

/-- Witness for C1 at a concrete store, mutation and key: the hypothesis (a
mutation named SET_COUNT exists) holds and the merge law follows. -/
theorem C1_commit_shallow_merge_witness :
    objGet demoStore.mutations setCountName = some setCountMutation ∧
    objGet (demoStore.commit setCountName (JVal.jnum 7)).1.currentState
        countKey =
      match objGet (setCountMutation demoStore.currentState (JVal.jnum 7))
          countKey with
      | some v => some v
      | none => objGet demoStore.currentState countKey :=
  ⟨rfl, C1_commit_shallow_merge demoStore setCountName (JVal.jnum 7)
    setCountMutation rfl countKey⟩

/-- C2 counterexample: after `demoStore.commit SET_COUNT 1`, the object that
was `this._state` before the call no longer holds its previous content —
`Object.assign(this._state, newState)` mutated it in place, so `commit` does
not leave the previous state object unmodified. -/
theorem C2_counterexample :
    heapRead (demoStore.commit setCountName (JVal.jnum 1)).1.heap
      demoStore.stateAddr ≠ demoStore.currentState := by
  decide

/-- C2 amended: `commit` on an existing mutation does hand `set` a fresh
top-level object (a newly allocated address) whose content is the shallow
merge of the previous state and the mutation's partial state, but the
previous state object is not left unmodified: `Object.assign` overwrites it
in place with that same merged content. -/
theorem C2_commit_fresh_object_prev_mutated (s : Store) (mutationKey : String)
    (payload : JVal) (f : StateMap → JVal → StateMap)
    (hf : objGet s.mutations mutationKey = some f)
    (ha : s.stateAddr < s.heap.length) :
    (s.commit mutationKey payload).1.stateAddr ≠ s.stateAddr ∧
    (s.commit mutationKey payload).1.currentState
      = objAssign s.currentState (f s.currentState payload) ∧
    heapRead (s.commit mutationKey payload).1.heap s.stateAddr
      = objAssign s.currentState (f s.currentState payload) := by
  rw [commit_of_found s mutationKey payload f hf]
  refine ⟨?_, currentState_set _ _, ?_⟩
  · show (heapWrite s.heap s.stateAddr
      (objAssign s.currentState (f s.currentState payload))).length
        ≠ s.stateAddr
    simp only [heapWrite, List.length_set]
    omega
  · show heapRead
      (heapWrite s.heap s.stateAddr
          (objAssign s.currentState (f s.currentState payload))
        ++ [objAssign s.currentState (f s.currentState payload)])
      s.stateAddr = objAssign s.currentState (f s.currentState payload)
    rw [heapRead_append_of_lt _ _ _
        (by simp only [heapWrite, List.length_set]; exact ha),
      heapRead_heapWrite_self _ _ _ ha]

/-- Witness for the amended C2 at a concrete store. -/
theorem C2_commit_fresh_object_prev_mutated_witness :
    objGet demoStore.mutations setCountName = some setCountMutation ∧
    demoStore.stateAddr < demoStore.heap.length ∧
    ((demoStore.commit setCountName (JVal.jnum 2)).1.stateAddr
        ≠ demoStore.stateAddr ∧
      (demoStore.commit setCountName (JVal.jnum 2)).1.currentState
        = objAssign demoStore.currentState
            (setCountMutation demoStore.currentState (JVal.jnum 2)) ∧
      heapRead (demoStore.commit setCountName (JVal.jnum 2)).1.heap
          demoStore.stateAddr
        = objAssign demoStore.currentState
            (setCountMutation demoStore.currentState (JVal.jnum 2))) :=
  ⟨rfl, by decide,
    C2_commit_fresh_object_prev_mutated demoStore setCountName (JVal.jnum 2)
      setCountMutation rfl (by decide)⟩

/-- C3: an unknown action or mutation name makes `dispatch`/`commit` return
`false` and leave the store unchanged — the failed lookup is absorbed into
the boolean result, no state write happens. -/
theorem C3_unknown_name_safety (s : Store) (name : String) (payload : JVal) :
    (objGet s.actions name = none → s.dispatch name payload = (s, false)) ∧
    (objGet s.mutations name = none → s.commit name payload = (s, false)) := by
  constructor
  · intro ha
    unfold Store.dispatch
    rw [ha]
  · intro hm
    unfold Store.commit
    rw [hm]

/-- Witness for C3: a name absent from both tables of a concrete store. -/
theorem C3_unknown_name_safety_witness :
    demoStore.dispatch missingName JVal.jnull = (demoStore, false) ∧
    demoStore.commit missingName JVal.jnull = (demoStore, false) :=
  ⟨(C3_unknown_name_safety demoStore missingName JVal.jnull).1 rfl,
    (C3_unknown_name_safety demoStore missingName JVal.jnull).2 rfl⟩

/-- C4: after any completed `set` — invoked directly, via a successful
`commit`, or via a successful `init` — and regardless of the guard's value
on entry, the status guard is idle ('noop'). -/
theorem C4_guard_reset (s : Store) (m : StateMap) (mutationKey : String)
    (payload : JVal) (server : StateMap) :
    (s.set m).status = "noop" ∧
    ((s.commit mutationKey payload).2 = true →
      (s.commit mutationKey payload).1.status = "noop") ∧
    (∀ s', s.init server = Except.ok s' → s'.status = "noop") := by
  refine ⟨rfl, ?_, ?_⟩
  · intro htrue
    cases hf : objGet s.mutations mutationKey with
    | none =>
      unfold Store.commit at htrue
      rw [hf] at htrue
      exact absurd htrue (by simp)
    | some f =>
      rw [commit_of_found s mutationKey payload f hf]
      rfl
  · intro s' hok
    simp only [Store.init] at hok
    split at hok
    · exact absurd hok (by simp)
    · injection hok with h
      rw [← h]
      rfl

/-- Witness for C4: a direct `set`, a successful commit, and a successful
`init` over storage holding a parseable state. -/
theorem C4_guard_reset_witness :
    (demoStore.set persistedState).status = "noop" ∧
    (demoStore.commit setCountName (JVal.jnum 3)).1.status = "noop" ∧
    browserStoreInit.status = "noop" :=
  ⟨(C4_guard_reset demoStore persistedState setCountName (JVal.jnum 3) []).1,
    (C4_guard_reset demoStore persistedState setCountName
      (JVal.jnum 3) []).2.1 rfl,
    (C4_guard_reset browserStore persistedState setCountName
      (JVal.jnum 3) []).2.2 browserStoreInit rfl⟩

/-- C8: `set` emits the unauthorized-direct-write warning exactly when the
guard is not 'mutation' and the configuration is non-production, and in
every case the new state is forwarded to the reactive primitive's `set`, so
the resulting state is `newState` regardless of the guard's value. -/
theorem C8_set_warns_but_writes (s : Store) (m : StateMap) :
    (s.set m).warnings =
      (if s.status ≠ "mutation" ∧ s.isDev = true then s.warnings + 1
        else s.warnings) ∧
    (s.set m).currentState = m :=
  ⟨rfl, currentState_set s m⟩

/-- C5 counterexample: with an unparseable value persisted under the store
key, the load path does not treat it as absent and fall back to the
initial/server state — `JSON.parse` throws, the exception propagates out of
`init`, and no state is set. -/
theorem C5_counterexample :
    badStore.init [(countKey, JVal.jnum 0)]
      = Except.error ({ badStore with status := "mutation" },
          JsErr.parseFailure) := rfl

/-- C5 amended: a persisted value that fails to parse is not absorbed — the
parse exception propagates out of the load path (out of `init` in
`src/store.js`, and out of the constructor in the older variant of the
class), and the initial/server state is never set. -/
theorem C5_malformed_persist_raises (s : Store) (server : StateMap)
    (p : Params) (storage : StorageMap) (dev : Bool) (bad : String)
    (hraw : bad ≠ "")
    (hs : getItem s.storage s.storeKey = some (JSStr.raw bad))
    (hp : getItem storage (p.key.getD defaultStoreKey)
      = some (JSStr.raw bad)) :
    s.init server
      = Except.error ({ s with status := "mutation" }, JsErr.parseFailure) ∧
    Store.constructV1 p true dev storage = Except.error JsErr.parseFailure := by
  have hfalsy : isFalsyStr (JSStr.raw bad) = false := by
    simp [isFalsyStr, hraw]
  constructor
  · simp only [Store.init, hs, hfalsy, jsonParse]
    rfl
  · simp only [Store.constructV1, hp, hfalsy, jsonParse]
    simp

/-- Witness for the amended C5 at a concrete malformed persisted string. -/
theorem C5_malformed_persist_raises_witness :
    badJson ≠ "" ∧
    (badStore.init []
        = Except.error ({ badStore with status := "mutation" },
            JsErr.parseFailure) ∧
      Store.constructV1 browserParams true false badStorage
        = Except.error JsErr.parseFailure) :=
  ⟨by decide,
    C5_malformed_persist_raises badStore [] browserParams badStorage false
      badJson (by decide) rfl rfl⟩

/-- C9: when a parseable snapshot is persisted under the store key,
`init(serverState)` succeeds and sets the state to the shallow merge of the
server state and the persisted snapshot, the persisted snapshot winning on
every shared key — this implementation resolves the precedence question as
"persisted state wins". -/
theorem C9_init_persisted_wins (s : Store) (server persisted : StateMap)
    (hs : getItem s.storage s.storeKey = some (JSStr.ser persisted)) :
    ∃ s', s.init server = Except.ok s' ∧
      ∀ k, objGet s'.currentState k =
        match objGet persisted k with
        | some v => some v
        | none => objGet server k := by
  refine ⟨Store.set { s with status := "mutation" }
    (objAssign server persisted), ?_, ?_⟩
  · simp only [Store.init, hs, isFalsyStr, jsonParse]
    rfl
  · intro k
    rw [currentState_set]
    exact objGet_objAssign server persisted k

/-- Witness for C9: a browser store whose storage holds a serialized state
with a `count` field; the server state also has `count` and an extra field. -/
theorem C9_init_persisted_wins_witness :
    getItem browserStore.storage browserStore.storeKey
      = some (JSStr.ser persistedState) ∧
    (∃ s', browserStore.init [(countKey, JVal.jnum 0), (itemsKey, JVal.jnull)]
        = Except.ok s' ∧
      ∀ k, objGet s'.currentState k =
        match objGet persistedState k with
        | some v => some v
        | none => objGet [(countKey, JVal.jnum 0), (itemsKey, JVal.jnull)] k) :=
  ⟨rfl, C9_init_persisted_wins browserStore
    [(countKey, JVal.jnum 0), (itemsKey, JVal.jnull)] persistedState rfl⟩

/-- C10: `init(serverState)` raises whenever nothing is persisted under the
store key — the `|| {}` fallback hands the object `{}` to `JSON.parse`,
which throws — and the error carries the store with its state unchanged
(only the guard was flipped to 'mutation'); `init` completes without raising
exactly when a parseable string is persisted under the store key. -/
theorem C10_init_requires_persisted (s : Store) (server : StateMap) :
    (getItem s.storage s.storeKey = none →
      s.init server
        = Except.error ({ s with status := "mutation" },
            JsErr.parseFailure)) ∧
    ((∃ s', s.init server = Except.ok s') ↔
      (∃ m, getItem s.storage s.storeKey = some (JSStr.ser m))) := by
  constructor
  · intro hnone
    simp only [Store.init, hnone, jsonParse]
  · constructor
    · rintro ⟨s', hok⟩
      cases hg : getItem s.storage s.storeKey with
      | none =>
        simp only [Store.init, hg, jsonParse] at hok
        exact absurd hok (by simp)
      | some v =>
        cases v with
        | ser m => exact ⟨m, rfl⟩
        | raw str =>
          simp only [Store.init, hg] at hok
          by_cases hstr : isFalsyStr (JSStr.raw str) = true
          · rw [if_pos hstr] at hok
            simp only [jsonParse] at hok
            exact absurd hok (by simp)
          · rw [if_neg hstr] at hok
            simp only [jsonParse] at hok
            exact absurd hok (by simp)
    · rintro ⟨m, hm⟩
      refine ⟨Store.set { s with status := "mutation" } (objAssign server m),
        ?_⟩
      simp only [Store.init, hm, isFalsyStr, jsonParse]
      rfl

/-- Witness for C10: nothing persisted makes `init` raise with the state
unchanged; a parseable persisted string makes it complete. -/
theorem C10_init_requires_persisted_witness :
    emptyBrowserStore.init []
      = Except.error ({ emptyBrowserStore with status := "mutation" },
          JsErr.parseFailure) ∧
    (∃ s', browserStore.init [] = Except.ok s') :=
  ⟨(C10_init_requires_persisted emptyBrowserStore []).1 rfl,
    (C10_init_requires_persisted browserStore []).2.mpr
      ⟨persistedState, rfl⟩⟩

/-- C7 counterexample: a getter named by the empty string exists and returns
42, yet `get('')` returns the full state snapshot, not the getter's value —
the `if (key)` truthiness check treats the empty-string key like no key, so
the claimed resolution order fails for the key `''`. -/
theorem C7_counterexample :
    objGet c7Store.getters emptyKey = some constGetter ∧
    constGetter c7Store.toStoreCore [] = JVal.jnum 42 ∧
    c7Store.get (some emptyKey) []
      = GetResult.state [(xKey, JVal.jnum 1), (yKey, JVal.jnum 2)] ∧
    GetResult.state [(xKey, JVal.jnum 1), (yKey, JVal.jnum 2)]
      ≠ GetResult.computed (JVal.jnum 42) :=
  ⟨rfl, rfl, rfl, fun h => GetResult.noConfusion h⟩

/-- C7 amended: for every nonempty key, `get` returns the getter's result
(invoked bound to the store with the extra arguments) whenever a getter of
that name exists — even if the state has a same-named top-level field — and
the state's value at that key when no getter exists; `get()` with no key,
and likewise `get('')` with the falsy empty-string key, return the full
current state snapshot. -/
theorem C7_get_resolution (s : Store) (k : String) (args : List JVal)
    (g : StoreCore → List JVal → JVal) (hk : k ≠ "") :
    (objGet s.getters k = some g →
      s.get (some k) args = GetResult.computed (g s.toStoreCore args)) ∧
    (objGet s.getters k = none →
      s.get (some k) args = GetResult.field (objGet s.currentState k)) ∧
    s.get none args = GetResult.state s.currentState ∧
    s.get (some "") args = GetResult.state s.currentState := by
  refine ⟨?_, ?_, rfl, rfl⟩
  · intro hg
    simp only [Store.get]
    rw [if_pos hk, hg]
  · intro hg
    simp only [Store.get]
    rw [if_pos hk, hg]

/-- Witness for the amended C7: all four resolution cases at a concrete
store (getter over a same-named state field; plain field; no key; falsy
empty key). -/
theorem C7_get_resolution_witness :
    xKey ≠ "" ∧
    c7Store.get (some xKey) []
      = GetResult.computed (constGetter c7Store.toStoreCore []) ∧
    c7Store.get (some yKey) []
      = GetResult.field (objGet c7Store.currentState yKey) ∧
    c7Store.get none [] = GetResult.state c7Store.currentState ∧
    c7Store.get (some "") [] = GetResult.state c7Store.currentState :=
  ⟨by decide,
    (C7_get_resolution c7Store xKey [] constGetter (by decide)).1 rfl,
    (C7_get_resolution c7Store yKey [] constGetter (by decide)).2.1 rfl,
    (C7_get_resolution c7Store xKey [] constGetter (by decide)).2.2.1,
    (C7_get_resolution c7Store xKey [] constGetter (by decide)).2.2.2⟩

/-- Helper: the older variant's constructor over storage holding a parseable
serialized state loads it at construction: it returns a store whose state is
the parsed snapshot, whose storage is untouched (no write-back happened
during the load, the listener not being attached yet), and whose listener is
attached afterwards. -/
theorem constructV1_of_ser (p : Params) (dev : Bool) (storage : StorageMap)
    (m : StateMap)
    (hget : getItem storage (p.key.getD defaultStoreKey)
      = some (JSStr.ser m)) :
    ∃ t, Store.constructV1 p true dev storage = Except.ok t ∧
      t.currentState = m ∧ t.storage = storage ∧
      t.persistListener = true := by
  refine ⟨v1Loaded p dev storage m, ?_, rfl, rfl, rfl⟩
  simp only [Store.constructV1, hget, isFalsyStr, jsonParse]
  rfl

/-- Helper: `init` over storage holding a parseable serialized state returns
the store obtained by the guarded `set` of the server state merged with the
parsed snapshot (snapshot winning). -/
theorem init_of_ser (s : Store) (server persisted : StateMap)
    (hs : getItem s.storage s.storeKey = some (JSStr.ser persisted)) :
    s.init server = Except.ok (Store.set { s with status := "mutation" }
      (objAssign server persisted)) := by
  simp only [Store.init, hs, isFalsyStr, jsonParse]
  rfl

/-- C6 counterexample: `browserStore.commit SET_COUNT 9` produces and
persists the state S = {count: 9} under the default key, yet a fresh
`src/store.js` instance constructed over that same storage does not load S
at construction — its state is empty, because this variant reads nothing
from the medium until `init` is called. -/
theorem C6_counterexample :
    (browserStore.commit setCountName (JVal.jnum 9)).1.currentState
      = [(countKey, JVal.jnum 9)] ∧
    getItem (browserStore.commit setCountName (JVal.jnum 9)).1.storage
        defaultStoreKey
      = some (JSStr.ser [(countKey, JVal.jnum 9)]) ∧
    (Store.construct browserParams true false
        (browserStore.commit setCountName (JVal.jnum 9)).1.storage).currentState
      = [] :=
  ⟨rfl, rfl, rfl⟩

/-- C6 amended: after a commit produces state S, the persistence round trip
holds, but where the load happens differs by variant. The older variant's
constructor over the same key and medium loads exactly S at construction,
before its own persistence listener is attached, writing nothing back. In
`src/store.js` construction alone loads nothing — the fresh instance starts
with the empty state — and the persisted S is loaded at the first
`init(serverState)` call, which sets the shallow merge of the server state
and S with S's fields winning (equal to S up to fields only present in the
server state and absent from S). -/
theorem C6_persistence_round_trip (s : Store) (mutationKey : String)
    (payload : JVal) (f : StateMap → JVal → StateMap) (r : Store)
    (S : StateMap) (p2 : Params) (dev : Bool)
    (hf : objGet s.mutations mutationKey = some f)
    (hpl : s.persistListener = true)
    (hk : p2.key.getD defaultStoreKey = s.storeKey)
    (hr : r = (s.commit mutationKey payload).1)
    (hS : S = r.currentState) :
    (∃ t, Store.constructV1 p2 true dev r.storage = Except.ok t ∧
        t.currentState = S ∧ t.storage = r.storage ∧
        t.persistListener = true) ∧
    (Store.construct p2 true dev r.storage).currentState = [] ∧
    (∀ server, ∃ t,
      (Store.construct p2 true dev r.storage).init server = Except.ok t ∧
      ∀ k, objGet t.currentState k =
        match objGet S k with
        | some v => some v
        | none => objGet server k) := by
  have hr' : r = Store.set
      { s with
        status := "mutation"
        heap := heapWrite s.heap s.stateAddr
          (objAssign s.currentState (f s.currentState payload)) }
      (objAssign s.currentState (f s.currentState payload)) := by
    rw [hr, commit_of_found s mutationKey payload f hf]
  have hcur : r.currentState
      = objAssign s.currentState (f s.currentState payload) := by
    rw [hr']
    exact currentState_set _ _
  have hS' : S = objAssign s.currentState (f s.currentState payload) :=
    hS.trans hcur
  have hstor : r.storage = setItem s.storage s.storeKey
      (JSStr.ser (objAssign s.currentState (f s.currentState payload))) := by
    rw [hr']
    simp only [Store.set, hpl]
    simp
  have hget : getItem r.storage (p2.key.getD defaultStoreKey)
      = some (JSStr.ser (objAssign s.currentState
          (f s.currentState payload))) := by
    rw [hk, hstor]
    unfold getItem setItem
    rw [objGet_objSet]
    simp
  obtain ⟨t1, ht1, ht1cur, ht1stor, ht1pl⟩ :=
    constructV1_of_ser p2 dev r.storage _ hget
  refine ⟨⟨t1, ht1, ?_, ht1stor, ht1pl⟩, rfl, ?_⟩
  · rw [ht1cur, hS']
  · intro server
    have hinit := init_of_ser (Store.construct p2 true dev r.storage) server
      (objAssign s.currentState (f s.currentState payload)) hget
    refine ⟨_, hinit, ?_⟩
    intro k
    rw [currentState_set, hS']
    exact objGet_objAssign server _ k

/-- Witness for the amended C6 at a concrete commit: the mutation exists,
the listener is attached, and both round-trip halves hold over the storage
the commit produced. -/
theorem C6_persistence_round_trip_witness :
    objGet browserStore.mutations setCountName = some setCountMutation ∧
    browserStore.persistListener = true ∧
    browserParams.key.getD defaultStoreKey = browserStore.storeKey ∧
    ((∃ t, Store.constructV1 browserParams true false
          (browserStore.commit setCountName (JVal.jnum 9)).1.storage
          = Except.ok t ∧
        t.currentState
          = (browserStore.commit setCountName (JVal.jnum 9)).1.currentState ∧
        t.storage
          = (browserStore.commit setCountName (JVal.jnum 9)).1.storage ∧
        t.persistListener = true) ∧
      (Store.construct browserParams true false
          (browserStore.commit setCountName (JVal.jnum 9)).1.storage).currentState
        = [] ∧
      (∀ server, ∃ t,
        (Store.construct browserParams true false
            (browserStore.commit setCountName (JVal.jnum 9)).1.storage).init
            server
          = Except.ok t ∧
        ∀ k, objGet t.currentState k =
          match objGet
              (browserStore.commit setCountName (JVal.jnum 9)).1.currentState
              k with
          | some v => some v
          | none => objGet server k)) :=
  ⟨rfl, rfl, rfl,
    C6_persistence_round_trip browserStore setCountName (JVal.jnum 9)
      setCountMutation (browserStore.commit setCountName (JVal.jnum 9)).1
      (browserStore.commit setCountName (JVal.jnum 9)).1.currentState
      browserParams false rfl rfl rfl rfl rfl⟩
